import Mathlib

/-!
Verification of the TSA (worker gateway) authentication subsystem and the
pipeline presenter of the `concourse` repository.

Shallow embedding of:
* `src/tsa/tsacmd/command.go` — `TSACommand`, `Runner`, `loadTeamAuthorizedKeys`,
  `configureSSHServer` (the `ssh.CertChecker` with its `IsUserAuthority`,
  `IsHostAuthority` and `UserKeyFallback` callbacks), and the `server` value
  constructed by `Runner`.
* `src/atc/api/present/pipelines.go` — `Pipelines`.

The `sessionTeam` registry type (`AuthorizeTeam`, lookup) is declared and used
in `command.go` but its method bodies live in a file not present in the
sources; those are modelled from the specification (§4.3 SessionRegistry),
as marked on each such definition.
-/

namespace Concourse

/-- An SSH public key.  The code compares keys only through
`bytes.Equal(k.Marshal(), key.Marshal())`, so a key is embedded as its
marshalled wire encoding, a byte list. -/
structure PublicKey where
  marshal : List Nat
deriving DecidableEq, Repr

/-- `bytes.Equal` on marshalled encodings. -/
def bytesEqual (a b : List Nat) : Bool :=
  a == b

/-- Go `type TeamAuthKeys struct { Team string; AuthKeys []ssh.PublicKey }`. -/
structure TeamAuthKeys where
  team : String
  authKeys : List PublicKey
deriving Repr

/-- The `sessionTeam` registry: Go `sessionTeams map[string]string` guarded by
a lock.  Embedded as an association list from session ID to team name; the
lock disappears in the sequential embedding. -/
structure SessionTeam where
  sessionTeams : List (String × String)
deriving DecidableEq, Repr

/-- Registry lookup: the team bound to a session, if any.
Modelled from the spec: `SessionRegistry.Lookup(sessionID) -> Optional<TenantName>`
(§4.3); the `sessionTeam` method bodies are not among the sources. -/
def SessionTeam.lookup (st : SessionTeam) (sessionID : String) : Option String :=
  (st.sessionTeams.find? (fun p => p.1 == sessionID)).map Prod.snd

/-- Outcome of a bind attempt on the registry. -/
inductive BindResult where
  | ok (st : SessionTeam)
  | invariantViolation
deriving DecidableEq, Repr

/-- `sessionTeam.AuthorizeTeam(sessionID, team)`.
Modelled from the spec: §4.3 `Bind(sessionID, tenant)` — "idempotent if called
again with the same tenant, but must reject (as a programming-invariant
violation, fatal-to-caller) a second call with a different tenant for the same
still-bound session"; the `sessionTeam` method bodies are not among the
sources. -/
def SessionTeam.authorizeTeam (st : SessionTeam) (sessionID team : String) :
    BindResult :=
  match st.lookup sessionID with
  | some t => if t = team then .ok st else .invariantViolation
  | none => .ok { sessionTeams := (sessionID, team) :: st.sessionTeams }

/-- The first loop of `UserKeyFallback`: `for _, k := range keys` with
`bytes.Equal(k.Marshal(), key.Marshal())`; `true` iff some configured key
matches the candidate byte-for-byte. -/
def findKey (keys : List PublicKey) (key : PublicKey) : Bool :=
  match keys with
  | [] => false
  | k :: rest =>
    if bytesEqual k.marshal key.marshal then true else findKey rest key

/-- Result of the `UserKeyFallback` callback together with the registry state
after the call.  `accepted` is the `return nil, nil` paths, `rejected` the
`fmt.Errorf("unknown public key")` path; `invariantViolation` surfaces the
fatal outcome of the spec-modelled `AuthorizeTeam`. -/
inductive AuthResult where
  | accepted (st : SessionTeam)
  | rejected (st : SessionTeam)
  | invariantViolation
deriving DecidableEq, Repr

/-- The second (nested) loop of `UserKeyFallback`:
`for _, teamKeys := range teamAuthorizedKeys { for _, k := range teamKeys.AuthKeys { ... } }` —
on the first team holding a byte-equal key, `AuthorizeTeam` is called and the
callback returns; if no team matches, the callback returns the
"unknown public key" error. -/
def userKeyFallbackTeams (teams : List TeamAuthKeys) (st : SessionTeam)
    (sessionID : String) (key : PublicKey) : AuthResult :=
  match teams with
  | [] => .rejected st
  | tk :: rest =>
    if findKey tk.authKeys key then
      match st.authorizeTeam sessionID tk.team with
      | .ok st' => .accepted st'
      | .invariantViolation => .invariantViolation
    else
      userKeyFallbackTeams rest st sessionID key

/-- `UserKeyFallback(conn, key)` from `configureSSHServer`
(`src/tsa/tsacmd/command.go:126-143`): first the global `authorizedKeys` loop
(accept with no registry effect), then the per-team loops, else reject. -/
def userKeyFallback (authorizedKeys : List PublicKey)
    (teamAuthorizedKeys : List TeamAuthKeys) (st : SessionTeam)
    (sessionID : String) (key : PublicKey) : AuthResult :=
  if findKey authorizedKeys key then
    .accepted st
  else
    userKeyFallbackTeams teamAuthorizedKeys st sessionID key

/-- `IsUserAuthority` of the `ssh.CertChecker` built in `configureSSHServer`:
`func(key ssh.PublicKey) bool { return false }`. -/
def isUserAuthority (key : PublicKey) : Bool :=
  false

/-- `IsHostAuthority` of the `ssh.CertChecker` built in `configureSSHServer`:
`func(key ssh.PublicKey, address string) bool { return false }`. -/
def isHostAuthority (key : PublicKey) (address : String) : Bool :=
  false

/-- A private key (`*flag.PrivateKey` contents); opaque key material. -/
structure PrivateKey where
  bytes : List Nat
deriving DecidableEq, Repr

/-- One nanosecond, the unit of Go `time.Duration`. -/
def nanosecond : Nat := 1

/-- Go `time.Second` in nanoseconds. -/
def timeSecond : Nat := 1000000000

/-- The default of the `heartbeat-interval` flag, `default:"30s"`. -/
def defaultHeartbeatInterval : Nat := 30 * timeSecond

/-- The `TSACommand` struct: the configuration surface of the gateway.
`TeamAuthorizedKeys` is a Go map from team name to key list; it is embedded as
an association list in the (process-fixed) iteration order.  `HostKey` is a
required flag, so it is present by the time `Runner` runs; `SessionSigningKey`
is kept optional because `Runner` explicitly checks it for nil.  Durations are
in nanoseconds. -/
structure TSACommand where
  bindIP : String
  peerAddress : String
  bindPort : Nat
  hostKey : PrivateKey
  authorizedKeys : List PublicKey
  teamAuthorizedKeys : List (String × List PublicKey)
  atcURLs : List String
  sessionSigningKey : Option PrivateKey
  heartbeatInterval : Nat
deriving Repr

/-- `loadTeamAuthorizedKeys`: ranges over the `TeamAuthorizedKeys` map and
builds the `[]TeamAuthKeys` slice.  (Its `error` result is always nil.) -/
def TSACommand.loadTeamAuthorizedKeys (cmd : TSACommand) : List TeamAuthKeys :=
  cmd.teamAuthorizedKeys.map (fun p => { team := p.1, authKeys := p.2 })

/-- The `*ssh.ServerConfig` built by `configureSSHServer`, after
`config.AddHostKey(signer)`.  The behaviour of its `PublicKeyCallback` is
`userKeyFallback` (via `certChecker.Authenticate` with both authority
predicates constantly false); the config value itself only records which key
sets the callback closes over. -/
structure ServerConfig where
  authorizedKeys : List PublicKey
  teamAuthorizedKeys : List TeamAuthKeys
deriving Repr

/-- `configureSSHServer`: builds the cert checker and server config, then
`ssh.NewSignerFromKey(cmd.HostKey)`.  Whether the external signer constructor
accepts the key material is passed in as the oracle `signerOk`; on failure the
function returns the wrapped error. -/
def TSACommand.configureSSHServer (cmd : TSACommand)
    (signerOk : PrivateKey → Bool) (teamAuthorizedKeys : List TeamAuthKeys) :
    Except String ServerConfig :=
  if signerOk cmd.hostKey then
    .ok { authorizedKeys := cmd.authorizedKeys,
          teamAuthorizedKeys := teamAuthorizedKeys }
  else
    .error "failed to create signer from host key"

/-- The `server` struct literal built in `Runner` (the fields the spec claims
speak about; logger, pickers, token generator and HTTP client are external
collaborators). -/
structure Server where
  heartbeatInterval : Nat
  cprInterval : Nat
  forwardHost : String
  config : ServerConfig
  sessionTeam : SessionTeam
deriving Repr

/-- The `serverRunner` value returned by `Runner`. -/
structure ServerRunner where
  server : Server
  listenAddr : String
deriving Repr

/-- `TSACommand.Runner`, as the pair of the log lines it emits and its
`(ifrit.Runner, error)` result.  Follows the source order: construct logger,
load team keys (never fails), warn when no keys at all are configured, build
the SSH server config (may fail), check the session signing key for nil, then
assemble the `server` with `cprInterval: 1 * time.Second`. -/
def TSACommand.runner (cmd : TSACommand) (signerOk : PrivateKey → Bool) :
    List String × Except String ServerRunner :=
  let teamAuthorizedKeys := cmd.loadTeamAuthorizedKeys
  let logs :=
    if cmd.authorizedKeys.length + cmd.teamAuthorizedKeys.length = 0 then
      ["starting-tsa-without-authorized-keys"]
    else
      []
  let sessionAuthTeam : SessionTeam := { sessionTeams := [] }
  match cmd.configureSSHServer signerOk teamAuthorizedKeys with
  | .error e => (logs, .error ("failed to configure SSH server: " ++ e))
  | .ok config =>
    let listenAddr := cmd.bindIP ++ ":" ++ toString cmd.bindPort
    match cmd.sessionSigningKey with
    | none => (logs, .error "missing session signing key")
    | some _ =>
      let srv : Server :=
        { heartbeatInterval := cmd.heartbeatInterval,
          cprInterval := 1 * timeSecond,
          forwardHost := cmd.peerAddress,
          config := config,
          sessionTeam := sessionAuthTeam }
      (logs, .ok { server := srv, listenAddr := listenAddr })

/-- `present.Pipelines` (`src/atc/api/present/pipelines.go`): allocates a
slice of the same length and sets index `i` to `Pipeline(savedPipelines[i])`.
`present.Pipeline` is defined outside the given sources, so the embedding is
parametric in it (and in the `db.Pipeline` / `atc.Pipeline` types). -/
def Pipelines {DbPipeline AtcPipeline : Type}
    (Pipeline : DbPipeline → AtcPipeline)
    (savedPipelines : List DbPipeline) : List AtcPipeline :=
  List.ofFn (fun i : Fin savedPipelines.length => Pipeline (savedPipelines.get i))

/-- A concrete, fully configured command used to instantiate the `Runner`
theorems: the flag defaults for addresses and ports, no authorized keys, a
host key, one ATC URL, a signing key, and the default heartbeat interval. -/
def sampleCmd : TSACommand :=
  { bindIP := "0.0.0.0",
    peerAddress := "127.0.0.1",
    bindPort := 2222,
    hostKey := { bytes := [1] },
    authorizedKeys := [],
    teamAuthorizedKeys := [],
    atcURLs := ["https://atc.example.com"],
    sessionSigningKey := some { bytes := [2] },
    heartbeatInterval := defaultHeartbeatInterval }

/- ------------------------------------------------------------------ -/
/- Helper lemmas                                                      -/
/- ------------------------------------------------------------------ -/

/-- If no team in the list holds a matching key, the team loop falls through
to the "unknown public key" error, leaving the registry untouched. -/
theorem userKeyFallbackTeams_no_match (teams : List TeamAuthKeys)
    (st : SessionTeam) (sessionID : String) (key : PublicKey)
    (ht : ∀ tk ∈ teams, findKey tk.authKeys key = false) :
    userKeyFallbackTeams teams st sessionID key = .rejected st := by
  induction teams with
  | nil => rfl
  | cons tk rest ih =>
    unfold userKeyFallbackTeams
    rw [ht tk (List.mem_cons_self tk rest)]
    simp only [Bool.false_eq_true, if_false]
    exact ih (fun t h => ht t (List.mem_cons_of_mem tk h))

/-- Looking up the session just inserted returns the team just bound. -/
theorem lookup_insert (l : List (String × String)) (sid team : String) :
    (SessionTeam.mk ((sid, team) :: l)).lookup sid = some team := by
  unfold SessionTeam.lookup
  rw [List.find?_cons_of_pos]
  · rfl
  · simp

/- ------------------------------------------------------------------ -/
/- Claim theorems                                                     -/
/- ------------------------------------------------------------------ -/

/-- Claim C2: a key in the global authorized-key set is accepted for any
session, with the session registry returned unchanged — even when the key
also appears in team sets, because the global loop runs first and returns. -/
theorem userKeyFallback_global_accepts_without_binding
    (authorizedKeys : List PublicKey) (teams : List TeamAuthKeys)
    (st : SessionTeam) (sessionID : String) (key : PublicKey)
    (h : findKey authorizedKeys key = true) :
    userKeyFallback authorizedKeys teams st sessionID key = .accepted st := by
  unfold userKeyFallback
  rw [h]
  simp

theorem userKeyFallback_global_accepts_without_binding_witness :
    findKey [PublicKey.mk [1]] (PublicKey.mk [1]) = true ∧
    userKeyFallback [PublicKey.mk [1]]
        [TeamAuthKeys.mk "ops" [PublicKey.mk [1]]]
        (SessionTeam.mk []) "sess" (PublicKey.mk [1]) =
      .accepted (SessionTeam.mk []) :=
  ⟨by decide,
   userKeyFallback_global_accepts_without_binding
     [PublicKey.mk [1]] [TeamAuthKeys.mk "ops" [PublicKey.mk [1]]]
     (SessionTeam.mk []) "sess" (PublicKey.mk [1]) (by decide)⟩

/-- Claim C3: a key in neither the global set nor any team's set is rejected
with the "unknown public key" error, and the registry state is returned
completely unchanged. -/
theorem userKeyFallback_unknown_key_rejected
    (authorizedKeys : List PublicKey) (teams : List TeamAuthKeys)
    (st : SessionTeam) (sessionID : String) (key : PublicKey)
    (hg : findKey authorizedKeys key = false)
    (ht : ∀ tk ∈ teams, findKey tk.authKeys key = false) :
    userKeyFallback authorizedKeys teams st sessionID key = .rejected st := by
  unfold userKeyFallback
  rw [hg]
  simp only [Bool.false_eq_true, if_false]
  exact userKeyFallbackTeams_no_match teams st sessionID key ht

theorem userKeyFallback_unknown_key_rejected_witness :
    findKey [PublicKey.mk [1]] (PublicKey.mk [9]) = false ∧
    (∀ tk ∈ [TeamAuthKeys.mk "ops" [PublicKey.mk [2]]],
      findKey tk.authKeys (PublicKey.mk [9]) = false) ∧
    userKeyFallback [PublicKey.mk [1]]
        [TeamAuthKeys.mk "ops" [PublicKey.mk [2]]]
        (SessionTeam.mk []) "sess" (PublicKey.mk [9]) =
      .rejected (SessionTeam.mk []) :=
  ⟨by decide, by decide,
   userKeyFallback_unknown_key_rejected
     [PublicKey.mk [1]] [TeamAuthKeys.mk "ops" [PublicKey.mk [2]]]
     (SessionTeam.mk []) "sess" (PublicKey.mk [9]) (by decide) (by decide)⟩

/-- Claim C4: binding a session already bound to team `T` again with `T` is
an idempotent no-op (same registry back), while binding it to a different
team yields `InvariantViolation` instead of overwriting. -/
theorem authorizeTeam_idempotent_rejects_rebind
    (st : SessionTeam) (sessionID T T' : String)
    (hb : st.lookup sessionID = some T) :
    st.authorizeTeam sessionID T = .ok st ∧
    (T' ≠ T → st.authorizeTeam sessionID T' = .invariantViolation) := by
  unfold SessionTeam.authorizeTeam
  rw [hb]
  refine ⟨by simp, fun hne => ?_⟩
  simp [Ne.symm hne]

theorem authorizeTeam_idempotent_rejects_rebind_witness :
    (SessionTeam.mk [("sess", "ops")]).authorizeTeam "sess" "ops" =
      .ok (SessionTeam.mk [("sess", "ops")]) ∧
    (SessionTeam.mk [("sess", "ops")]).authorizeTeam "sess" "dev" =
      .invariantViolation :=
  ⟨(authorizeTeam_idempotent_rejects_rebind
      (SessionTeam.mk [("sess", "ops")]) "sess" "ops" "dev" (by decide)).1,
   (authorizeTeam_idempotent_rejects_rebind
      (SessionTeam.mk [("sess", "ops")]) "sess" "ops" "dev" (by decide)).2
     (by decide)⟩

/-- Claim C9: both certificate-authority predicates of the configured SSH
server are constantly false — `IsUserAuthority` for every key and
`IsHostAuthority` for every key and address — so certificate signatures never
authorize a connection. -/
theorem certChecker_authorities_always_false :
    (∀ key : PublicKey, isUserAuthority key = false) ∧
    (∀ (key : PublicKey) (address : String),
      isHostAuthority key address = false) :=
  ⟨fun _ => rfl, fun _ _ => rfl⟩

/-- Claim C10: `Pipelines` returns a list of the same length as its input
whose i-th element is `Pipeline` of the i-th input — the elementwise,
order-preserving map of `Pipeline`. -/
theorem pipelines_is_elementwise_map {DbPipeline AtcPipeline : Type}
    (Pipeline : DbPipeline → AtcPipeline) (savedPipelines : List DbPipeline) :
    (Pipelines Pipeline savedPipelines).length = savedPipelines.length ∧
    Pipelines Pipeline savedPipelines = savedPipelines.map Pipeline := by
  constructor
  · simp [Pipelines]
  · unfold Pipelines
    rw [show (fun i : Fin savedPipelines.length =>
          Pipeline (savedPipelines.get i)) =
        Pipeline ∘ savedPipelines.get from rfl]
    rw [← List.map_ofFn, List.ofFn_get]

/-- Claim C5: when the candidate key is absent from the global set but
matches team `tk` — the first matching team in iteration order (`pre` holds
no match) — and the session is not yet bound, the callback accepts and the
registry gains exactly the one binding `sessionID → tk.team`, regardless of
any further matching teams in `post`: the loop returns at the first match. -/
theorem userKeyFallback_first_match_binds_once
    (authorizedKeys : List PublicKey) (pre post : List TeamAuthKeys)
    (tk : TeamAuthKeys) (st : SessionTeam) (sessionID : String)
    (key : PublicKey)
    (hg : findKey authorizedKeys key = false)
    (hpre : ∀ t ∈ pre, findKey t.authKeys key = false)
    (hmatch : findKey tk.authKeys key = true)
    (hfree : st.lookup sessionID = none) :
    userKeyFallback authorizedKeys (pre ++ tk :: post) st sessionID key =
      .accepted (SessionTeam.mk ((sessionID, tk.team) :: st.sessionTeams)) := by
  unfold userKeyFallback
  rw [hg]
  simp only [Bool.false_eq_true, if_false]
  induction pre with
  | nil =>
    unfold userKeyFallbackTeams
    simp only [List.nil_append]
    rw [hmatch]
    unfold SessionTeam.authorizeTeam
    rw [hfree]
    simp
  | cons t rest ih =>
    unfold userKeyFallbackTeams
    simp only [List.cons_append]
    rw [hpre t (List.mem_cons_self t rest)]
    simp only [Bool.false_eq_true, if_false]
    exact ih (fun t' h => hpre t' (List.mem_cons_of_mem t h))

theorem userKeyFallback_first_match_binds_once_witness :
    userKeyFallback [] ([] ++ TeamAuthKeys.mk "ops" [PublicKey.mk [7]] ::
        [TeamAuthKeys.mk "dev" [PublicKey.mk [7]]])
        (SessionTeam.mk []) "sess" (PublicKey.mk [7]) =
      .accepted (SessionTeam.mk [("sess", "ops")]) :=
  userKeyFallback_first_match_binds_once [] []
    [TeamAuthKeys.mk "dev" [PublicKey.mk [7]]]
    (TeamAuthKeys.mk "ops" [PublicKey.mk [7]]) (SessionTeam.mk []) "sess"
    (PublicKey.mk [7]) (by decide) (by intro t h; cases h) (by decide)
    (by decide)

/-- Claim C1: a key not in the global set that matches only team `T`'s key
set (every matching team entry is named `T`) is accepted, and afterwards the
registry lookup for the session returns `T` (provided the session is not
already bound to a different team, which the spec makes fatal instead). -/
theorem userKeyFallback_exclusive_tenant_binds
    (authorizedKeys : List PublicKey) (teams : List TeamAuthKeys)
    (st : SessionTeam) (sessionID T : String) (key : PublicKey)
    (hg : findKey authorizedKeys key = false)
    (hmem : ∃ tk ∈ teams, findKey tk.authKeys key = true)
    (hexcl : ∀ tk ∈ teams, findKey tk.authKeys key = true → tk.team = T)
    (hfree : ∀ t, st.lookup sessionID = some t → t = T) :
    ∃ st', userKeyFallback authorizedKeys teams st sessionID key =
        .accepted st' ∧ st'.lookup sessionID = some T := by
  unfold userKeyFallback
  rw [hg]
  simp only [Bool.false_eq_true, if_false]
  induction teams with
  | nil => exact absurd hmem (by simp)
  | cons tk rest ih =>
    unfold userKeyFallbackTeams
    by_cases hk : findKey tk.authKeys key = true
    · rw [hk]
      simp only [if_true]
      have hteam : tk.team = T :=
        hexcl tk (List.mem_cons_self tk rest) hk
      unfold SessionTeam.authorizeTeam
      cases hb : st.lookup sessionID with
      | none =>
        refine ⟨SessionTeam.mk ((sessionID, tk.team) :: st.sessionTeams),
          by simp, ?_⟩
        rw [hteam] at *
        exact lookup_insert st.sessionTeams sessionID T
      | some t =>
        have ht : t = T := hfree t hb
        rw [ht, hteam]
        simp only [if_pos rfl]
        exact ⟨st, rfl, by rw [hb, ht]⟩
    · rw [Bool.not_eq_true] at hk
      rw [hk]
      simp only [Bool.false_eq_true, if_false]
      refine ih ?_ (fun t h ht => hexcl t (List.mem_cons_of_mem tk h) ht)
      obtain ⟨tk', htk', hmatch'⟩ := hmem
      rcases List.mem_cons.mp htk' with heq | hmem'
      · rw [heq] at hmatch'
        rw [hmatch'] at hk
        cases hk
      · exact ⟨tk', hmem', hmatch'⟩

theorem userKeyFallback_exclusive_tenant_binds_witness :
    ∃ st', userKeyFallback [PublicKey.mk [1]]
        [TeamAuthKeys.mk "ops" [PublicKey.mk [7]]]
        (SessionTeam.mk []) "sess" (PublicKey.mk [7]) =
      .accepted st' ∧ st'.lookup "sess" = some "ops" :=
  userKeyFallback_exclusive_tenant_binds [PublicKey.mk [1]]
    [TeamAuthKeys.mk "ops" [PublicKey.mk [7]]] (SessionTeam.mk [])
    "sess" "ops" (PublicKey.mk [7]) (by decide)
    ⟨TeamAuthKeys.mk "ops" [PublicKey.mk [7]], by simp, by decide⟩
    (by intro tk h ht
        rcases List.mem_cons.mp h with heq | hmem
        · rw [heq]
        · cases hmem)
    (by intro t h; cases h)

/-- Claim C6: with zero authorized keys configured (empty global list and no
team key files), `Runner` still succeeds — it returns a server runner, not an
error — and the startup log carries the warning about running without
authorized keys. -/
theorem runner_zero_keys_succeeds_with_warning
    (cmd : TSACommand) (signerOk : PrivateKey → Bool) (k : PrivateKey)
    (hglobal : cmd.authorizedKeys = [])
    (hteams : cmd.teamAuthorizedKeys = [])
    (hsigner : signerOk cmd.hostKey = true)
    (hkey : cmd.sessionSigningKey = some k) :
    ∃ sr : ServerRunner,
      cmd.runner signerOk =
        (["starting-tsa-without-authorized-keys"], .ok sr) := by
  refine ⟨?_, ?_⟩
  · exact
      { server :=
          { heartbeatInterval := cmd.heartbeatInterval,
            cprInterval := 1 * timeSecond,
            forwardHost := cmd.peerAddress,
            config := { authorizedKeys := cmd.authorizedKeys,
                        teamAuthorizedKeys := cmd.loadTeamAuthorizedKeys },
            sessionTeam := SessionTeam.mk [] },
        listenAddr := cmd.bindIP ++ ":" ++ toString cmd.bindPort }
  · unfold TSACommand.runner TSACommand.configureSSHServer
    rw [hsigner, hkey]
    simp [hglobal, hteams]

theorem runner_zero_keys_succeeds_with_warning_witness :
    sampleCmd.authorizedKeys = [] ∧
    sampleCmd.teamAuthorizedKeys = [] ∧
    ∃ sr : ServerRunner,
      sampleCmd.runner (fun k => true) =
        (["starting-tsa-without-authorized-keys"], .ok sr) :=
  ⟨rfl, rfl,
   runner_zero_keys_succeeds_with_warning sampleCmd (fun k => true)
     (PrivateKey.mk [2]) rfl rfl rfl rfl⟩

/-- Claim C7: when the session signing key is absent (nil), `Runner` returns
an error — no server runner value is ever produced, whatever the rest of the
configuration — so startup fails before the gateway listens. -/
theorem runner_missing_signing_key_fails
    (cmd : TSACommand) (signerOk : PrivateKey → Bool)
    (hkey : cmd.sessionSigningKey = none) :
    ∃ e : String, (cmd.runner signerOk).2 = Except.error e := by
  unfold TSACommand.runner TSACommand.configureSSHServer
  by_cases hs : signerOk cmd.hostKey
  · rw [hs, hkey]
    exact ⟨"missing session signing key", by simp⟩
  · rw [Bool.not_eq_true] at hs
    rw [hs]
    exact ⟨"failed to configure SSH server: failed to create signer from host key",
      by simp⟩

theorem runner_missing_signing_key_fails_witness :
    ∃ e : String,
      (TSACommand.runner { sampleCmd with sessionSigningKey := none }
        (fun k => true)).2 = Except.error e :=
  runner_missing_signing_key_fails { sampleCmd with sessionSigningKey := none }
    (fun k => true) rfl

/-- Claim C8: every server `Runner` builds has its recovery backoff
(`cprInterval`) fixed at 1 second and its heartbeat interval taken from the
configuration; under the default configuration (the flag default `30s`) the
backoff, 1 s, is strictly shorter than the heartbeat interval, 30 s. -/
theorem server_cpr_shorter_than_default_heartbeat
    (cmd : TSACommand) (signerOk : PrivateKey → Bool)
    (logs : List String) (sr : ServerRunner)
    (hdefault : cmd.heartbeatInterval = defaultHeartbeatInterval)
    (hrun : cmd.runner signerOk = (logs, .ok sr)) :
    sr.server.cprInterval = 1 * timeSecond ∧
    sr.server.heartbeatInterval = 30 * timeSecond ∧
    sr.server.cprInterval < sr.server.heartbeatInterval := by
  unfold TSACommand.runner TSACommand.configureSSHServer at hrun
  by_cases hs : signerOk cmd.hostKey
  · rw [hs] at hrun
    cases hkey : cmd.sessionSigningKey with
    | none => rw [hkey] at hrun; simp at hrun
    | some k =>
      rw [hkey] at hrun
      simp only [if_pos rfl] at hrun
      have h2 := congrArg Prod.snd hrun
      simp only at h2
      injection h2 with h3
      rw [← h3, hdefault]
      refine ⟨rfl, rfl, ?_⟩
      unfold defaultHeartbeatInterval timeSecond
      norm_num
  · rw [Bool.not_eq_true] at hs
    rw [hs] at hrun
    simp at hrun

theorem server_cpr_shorter_than_default_heartbeat_witness :
    ∃ (logs : List String) (sr : ServerRunner),
      sampleCmd.heartbeatInterval = defaultHeartbeatInterval ∧
      sampleCmd.runner (fun k => true) = (logs, .ok sr) ∧
      sr.server.cprInterval = 1 * timeSecond ∧
      sr.server.heartbeatInterval = 30 * timeSecond ∧
      sr.server.cprInterval < sr.server.heartbeatInterval := by
  refine ⟨["starting-tsa-without-authorized-keys"],
    { server :=
        { heartbeatInterval := defaultHeartbeatInterval,
          cprInterval := 1 * timeSecond,
          forwardHost := "127.0.0.1",
          config := { authorizedKeys := [], teamAuthorizedKeys := [] },
          sessionTeam := SessionTeam.mk [] },
      listenAddr := "0.0.0.0:2222" }, rfl, rfl, ?_⟩
  exact (server_cpr_shorter_than_default_heartbeat sampleCmd (fun k => true)
    ["starting-tsa-without-authorized-keys"] _ rfl rfl)

end Concourse
